import Mathlib

/-!
Verification of the teams-bot lifecycle orchestration and delivery subsystem.

Shallow embedding of:
- the status-history append (`_addStatusChange`) of `Orchestrator` and
  `JoinProcedure` (src/apps/teams-bot/src/procedures/orchestrator.ts),
- the join probes `isInMeetingLobby` / `isInMeeting`,
- the orchestrator operations `launch`, `_close`/`shutdown`, `getCaptions`,
- the bot-runner HTTP handler for GET /captions,
- the `Notifier` fan-out (`sendEventToServer`, `_sendHttp`, `_sendWsWithRetry`)
  (src/apps/teams-bot/src/lib/Notifier.ts),
- the shell helper `find_free_port` of the standalone launcher script.

Timestamps are modelled as naturals; the wall clock sampled at each append is
passed in explicitly. Browser/network effects are modelled by explicit
observation inputs (did the element appear, did the fetch throw, ...), which is
exactly the information flow of the source: each branch of the embedded code
mirrors a `try`/`catch` or `if` of the TypeScript.
-/

/-- Status record shape shared by the Orchestrator and JoinProcedure
histories: status, optional machine subCode, optional message, and the
creation timestamp (`createdAt`, modelled as a natural). -/
structure StatusRecord (σ : Type) where
  status : σ
  subCode : Option String
  message : Option String
  createdAt : Nat
deriving DecidableEq, Repr

/-- Comparison used by the sort in `_addStatusChange`:
`new Date(a.createdAt).getTime() - new Date(b.createdAt).getTime()`. -/
def createdLE {σ : Type} (a b : StatusRecord σ) : Prop :=
  a.createdAt ≤ b.createdAt

instance {σ : Type} : DecidableRel (@createdLE σ) :=
  fun a b => inferInstanceAs (Decidable (a.createdAt ≤ b.createdAt))

instance {σ : Type} : IsTotal (StatusRecord σ) createdLE :=
  ⟨fun a b => Nat.le_total a.createdAt b.createdAt⟩

instance {σ : Type} : IsTrans (StatusRecord σ) createdLE :=
  ⟨fun _ _ _ h h2 => Nat.le_trans h h2⟩

/-- Core of `_addStatusChange` (identical in Orchestrator and JoinProcedure):
append the new record, stamped with the current time, then sort the whole
history by `createdAt` ascending. -/
def addStatusChange {σ : Type} (h : List (StatusRecord σ)) (status : σ)
    (subCode message : Option String) (now : Nat) : List (StatusRecord σ) :=
  List.insertionSort createdLE (h ++ [⟨status, subCode, message, now⟩])

/-- Orchestrator status enumeration (`OrchestratorStateSchema`). -/
inductive OrchStatus
  | unknown
  | initializing
  | launching
  | joining
  | in_waiting_room
  | in_call_not_recording
  | call_ended
  | done
  | fatal
deriving DecidableEq, Repr

/-- JoinProcedure status enumeration (`JoinProcedureStateSchema`). -/
inductive JoinStatus
  | unknown
  | initializing
  | joining
  | in_waiting_room
  | joined
  | fatal
deriving DecidableEq, Repr

/-- Orchestrator state (`OrchestratorStateType`). -/
structure OrchestratorState where
  botId : String
  meetingUrl : String
  notifierUrls : List String
  statusChanges : List (StatusRecord OrchStatus)
deriving DecidableEq, Repr

/-- JoinProcedure state (`JoinProcedureStateType`). -/
structure JoinState where
  botId : String
  statusChanges : List (StatusRecord JoinStatus)
deriving DecidableEq, Repr

namespace Orchestrator

/-- Orchestrator constructor: seeds the history with `initializing`. -/
def mkState (botId meetingUrl : String) (notifierUrls : List String)
    (now : Nat) : OrchestratorState :=
  { botId := botId
    meetingUrl := meetingUrl
    notifierUrls := notifierUrls
    statusChanges := [⟨.initializing, none, none, now⟩] }

/-- Orchestrator `_addStatusChange` lifted to the whole state. -/
def addStatus (s : OrchestratorState) (st : OrchStatus)
    (subCode message : Option String) (now : Nat) : OrchestratorState :=
  { s with statusChanges := addStatusChange s.statusChanges st subCode message now }

end Orchestrator

namespace JoinProcedure

/-- JoinProcedure constructor: seeds the history with `initializing`. -/
def mkState (botId : String) (now : Nat) : JoinState :=
  { botId := botId
    statusChanges := [⟨.initializing, none, none, now⟩] }

/-- JoinProcedure `_addStatusChange` lifted to the whole state. -/
def addStatus (s : JoinState) (st : JoinStatus)
    (subCode message : Option String) (now : Nat) : JoinState :=
  { s with statusChanges := addStatusChange s.statusChanges st subCode message now }

end JoinProcedure

/-- Last status of a JoinProcedure history, read by the probes as
`statusChanges[statusChanges.length - 1].status` (the history is always
non-empty after the constructor). -/
def lastStatus (s : JoinState) : Option JoinStatus :=
  s.statusChanges.getLast?.map (fun r => r.status)

namespace JoinProcedure

/-- Probe `isInMeetingLobby`: `observed` is whether the lobby indicator text
became visible within the timeout. On a true observation the status
`in_waiting_room` is appended only when the last status differs; a false
observation (the `expect` timing out) is caught and returns `false` with no
append. -/
def isInMeetingLobby (observed : Bool) (now : Nat) (s : JoinState) :
    JoinState × Bool :=
  if observed then
    (if lastStatus s ≠ some .in_waiting_room then
      addStatus s .in_waiting_room none
        (some "Bot is in meeting lobby, waiting for host to let the bot in.") now
    else s, true)
  else (s, false)

/-- Probe `isInMeeting`: `observed` is whether the hang-up button appeared
within the timeout. Appends `joined` only when the last status differs; a
false observation returns `false` with no append. -/
def isInMeeting (observed : Bool) (now : Nat) (s : JoinState) :
    JoinState × Bool :=
  if observed then
    (if lastStatus s ≠ some .joined then
      addStatus s .joined none (some "Bot is in meeting.") now
    else s, true)
  else (s, false)

end JoinProcedure

/-- Repeated `isInMeetingLobby` calls all observing true, one per timestamp. -/
def lobbyCallsTrue (s : JoinState) : List Nat → JoinState
  | [] => s
  | t :: ts => lobbyCallsTrue (JoinProcedure.isInMeetingLobby true t s).1 ts

/-- Repeated `isInMeeting` calls all observing true, one per timestamp. -/
def meetingCallsTrue (s : JoinState) : List Nat → JoinState
  | [] => s
  | t :: ts => meetingCallsTrue (JoinProcedure.isInMeeting true t s).1 ts

/-- Number of records carrying a given status in a JoinProcedure history. -/
def countStatus (h : List (StatusRecord JoinStatus)) (st : JoinStatus) : Nat :=
  h.countP (fun r => r.status == st)

/-! Theorems for claims C1 and C8. -/

/-- C1: for every sequence of status appends to the Orchestrator status
history or to the JoinProcedure status history, after every append the
resulting history is sorted non-decreasing by `createdAt`. Every append in
any sequence is one application of `addStatus`, whose output is always
sorted, whatever the prior history and whatever timestamp the clock yields. -/
theorem statusHistory_sorted_after_every_append :
    (∀ (s : OrchestratorState) (st : OrchStatus) (sc msg : Option String) (now : Nat),
      List.Sorted createdLE (Orchestrator.addStatus s st sc msg now).statusChanges) ∧
    (∀ (s : JoinState) (st : JoinStatus) (sc msg : Option String) (now : Nat),
      List.Sorted createdLE (JoinProcedure.addStatus s st sc msg now).statusChanges) := by
  constructor
  · intro s st sc msg now
    simpa [Orchestrator.addStatus, addStatusChange] using
      List.sorted_insertionSort createdLE
        (s.statusChanges ++ [(⟨st, sc, msg, now⟩ : StatusRecord OrchStatus)])
  · intro s st sc msg now
    simpa [JoinProcedure.addStatus, addStatusChange] using
      List.sorted_insertionSort createdLE
        (s.statusChanges ++ [(⟨st, sc, msg, now⟩ : StatusRecord JoinStatus)])

/-- Helper: an append produces a permutation of the old history plus the new
record, so old records survive intact and the length grows by one. -/
theorem addStatusChange_perm {σ : Type} (h : List (StatusRecord σ)) (st : σ)
    (sc msg : Option String) (now : Nat) :
    (addStatusChange h st sc msg now).Perm (h ++ [⟨st, sc, msg, now⟩]) := by
  simpa [addStatusChange] using
    List.perm_insertionSort createdLE
      (h ++ [(⟨st, sc, msg, now⟩ : StatusRecord σ)])

/-- C8: every status-history append on the Orchestrator or JoinProcedure
keeps every previously appended record present with unmodified field values,
grows the history length by exactly one, and leaves `botId`, `meetingUrl`
and `notifierUrls` unchanged. -/
theorem statusHistory_append_frame :
    (∀ (s : OrchestratorState) (st : OrchStatus) (sc msg : Option String) (now : Nat),
      (Orchestrator.addStatus s st sc msg now).statusChanges.length
          = s.statusChanges.length + 1 ∧
      (∀ r ∈ s.statusChanges, r ∈ (Orchestrator.addStatus s st sc msg now).statusChanges) ∧
      (Orchestrator.addStatus s st sc msg now).botId = s.botId ∧
      (Orchestrator.addStatus s st sc msg now).meetingUrl = s.meetingUrl ∧
      (Orchestrator.addStatus s st sc msg now).notifierUrls = s.notifierUrls) ∧
    (∀ (s : JoinState) (st : JoinStatus) (sc msg : Option String) (now : Nat),
      (JoinProcedure.addStatus s st sc msg now).statusChanges.length
          = s.statusChanges.length + 1 ∧
      (∀ r ∈ s.statusChanges, r ∈ (JoinProcedure.addStatus s st sc msg now).statusChanges) ∧
      (JoinProcedure.addStatus s st sc msg now).botId = s.botId) := by
  constructor
  · intro s st sc msg now
    refine ⟨?_, ?_, rfl, rfl, rfl⟩
    · have := (addStatusChange_perm s.statusChanges st sc msg now).length_eq
      simpa [Orchestrator.addStatus] using this
    · intro r hr
      have hmem : r ∈ s.statusChanges ++ [⟨st, sc, msg, now⟩] :=
        List.mem_append_left _ hr
      exact ((addStatusChange_perm s.statusChanges st sc msg now).mem_iff).2 hmem
  · intro s st sc msg now
    refine ⟨?_, ?_, rfl⟩
    · have := (addStatusChange_perm s.statusChanges st sc msg now).length_eq
      simpa [JoinProcedure.addStatus] using this
    · intro r hr
      have hmem : r ∈ s.statusChanges ++ [⟨st, sc, msg, now⟩] :=
        List.mem_append_left _ hr
      exact ((addStatusChange_perm s.statusChanges st sc msg now).mem_iff).2 hmem

/-! Theorems for claim C6: idempotence of the join probes. -/

/-- Helper: appending with a timestamp at or after every existing record to a
sorted history is a plain append at the end (the defensive re-sort is the
identity there). -/
theorem join_addStatus_eq_append (s : JoinState) (st : JoinStatus)
    (sc msg : Option String) (now : Nat)
    (hs : List.Sorted createdLE s.statusChanges)
    (hle : ∀ r ∈ s.statusChanges, r.createdAt ≤ now) :
    (JoinProcedure.addStatus s st sc msg now).statusChanges
      = s.statusChanges ++ [⟨st, sc, msg, now⟩] := by
  have hsorted :
      List.Sorted createdLE
        (s.statusChanges ++ [(⟨st, sc, msg, now⟩ : StatusRecord JoinStatus)]) := by
    refine List.pairwise_append.2 ⟨hs, List.pairwise_singleton _ _, ?_⟩
    intro a ha b hb
    rw [List.mem_singleton] at hb
    subst hb
    exact hle a ha
  show addStatusChange s.statusChanges st sc msg now = _
  unfold addStatusChange
  exact hsorted.insertionSort_eq

/-- Helper: once the last status is `in_waiting_room`, further true lobby
observations change nothing. -/
theorem lobbyCallsTrue_stable : ∀ (ts : List Nat) (s : JoinState),
    lastStatus s = some .in_waiting_room → lobbyCallsTrue s ts = s
  | [], _, _ => rfl
  | t :: ts, s, h => by
    have hid : JoinProcedure.isInMeetingLobby true t s = (s, true) := by
      simp [JoinProcedure.isInMeetingLobby, h]
    rw [lobbyCallsTrue, hid]
    exact lobbyCallsTrue_stable ts s h

/-- Helper: once the last status is `joined`, further true in-meeting
observations change nothing. -/
theorem meetingCallsTrue_stable : ∀ (ts : List Nat) (s : JoinState),
    lastStatus s = some .joined → meetingCallsTrue s ts = s
  | [], _, _ => rfl
  | t :: ts, s, h => by
    have hid : JoinProcedure.isInMeeting true t s = (s, true) := by
      simp [JoinProcedure.isInMeeting, h]
    rw [meetingCallsTrue, hid]
    exact meetingCallsTrue_stable ts s h

/-- C6: with a sorted history and a clock at or past every existing record,
a sequence of repeated probe calls all observing true appends the
corresponding status (`in_waiting_room` for the lobby probe, `joined` for the
in-meeting probe) exactly once, and a false observation returns false and
appends nothing. -/
theorem joinProbes_idempotent_append
    (s : JoinState) (t0 : Nat) (ts : List Nat)
    (hs : List.Sorted createdLE s.statusChanges)
    (hle : ∀ r ∈ s.statusChanges, r.createdAt ≤ t0) :
    (lastStatus s ≠ some .in_waiting_room →
      (lobbyCallsTrue s (t0 :: ts)).statusChanges.length
          = s.statusChanges.length + 1 ∧
      countStatus (lobbyCallsTrue s (t0 :: ts)).statusChanges .in_waiting_room
          = countStatus s.statusChanges .in_waiting_room + 1) ∧
    (lastStatus s ≠ some .joined →
      (meetingCallsTrue s (t0 :: ts)).statusChanges.length
          = s.statusChanges.length + 1 ∧
      countStatus (meetingCallsTrue s (t0 :: ts)).statusChanges .joined
          = countStatus s.statusChanges .joined + 1) ∧
    (∀ (s2 : JoinState) (t : Nat),
      JoinProcedure.isInMeetingLobby false t s2 = (s2, false) ∧
      JoinProcedure.isInMeeting false t s2 = (s2, false)) := by
  refine ⟨?_, ?_, ?_⟩
  · intro hlast
    have h1 : (JoinProcedure.isInMeetingLobby true t0 s).1
        = JoinProcedure.addStatus s .in_waiting_room none
            (some "Bot is in meeting lobby, waiting for host to let the bot in.") t0 := by
      simp [JoinProcedure.isInMeetingLobby, hlast]
    have happ := join_addStatus_eq_append s .in_waiting_room none
      (some "Bot is in meeting lobby, waiting for host to let the bot in.") t0 hs hle
    have hlast1 : lastStatus (JoinProcedure.isInMeetingLobby true t0 s).1
        = some .in_waiting_room := by
      rw [h1]
      unfold lastStatus
      rw [happ, List.getLast?_concat]
      rfl
    rw [lobbyCallsTrue, lobbyCallsTrue_stable ts _ hlast1, h1]
    constructor
    · rw [happ]; simp
    · rw [countStatus, countStatus, happ, List.countP_append]
      simp
  · intro hlast
    have h1 : (JoinProcedure.isInMeeting true t0 s).1
        = JoinProcedure.addStatus s .joined none (some "Bot is in meeting.") t0 := by
      simp [JoinProcedure.isInMeeting, hlast]
    have happ := join_addStatus_eq_append s .joined none
      (some "Bot is in meeting.") t0 hs hle
    have hlast1 : lastStatus (JoinProcedure.isInMeeting true t0 s).1
        = some .joined := by
      rw [h1]
      unfold lastStatus
      rw [happ, List.getLast?_concat]
      rfl
    rw [meetingCallsTrue, meetingCallsTrue_stable ts _ hlast1, h1]
    constructor
    · rw [happ]; simp
    · rw [countStatus, countStatus, happ, List.countP_append]
      simp
  · intro s2 t
    constructor <;> simp [JoinProcedure.isInMeetingLobby, JoinProcedure.isInMeeting]

/-- Witness for C6 at a concrete fresh JoinProcedure state and three
repeated true lobby observations. -/
theorem joinProbes_idempotent_append_witness :
    (lobbyCallsTrue (JoinProcedure.mkState "bot" 0) [1, 2, 3]).statusChanges.length
      = (JoinProcedure.mkState "bot" 0).statusChanges.length + 1 := by
  have h := joinProbes_idempotent_append (JoinProcedure.mkState "bot" 0) 1 [2, 3]
    (by decide) (by decide)
  exact (h.1 (by decide)).1

/-! Orchestrator lifecycle operations: `launch` and `_close`/`shutdown`.
Browser and UI effects appear as explicit observation inputs, one per
`try`/`catch` or `if` of the source; the wall clock sampled by each append is
a function of the number of records already present. -/

/-- Append helper threading the sampled clock (`new Date()` at append time). -/
def appT (now : Nat → Nat) (s : OrchestratorState) (st : OrchStatus)
    (sc msg : Option String) : OrchestratorState :=
  Orchestrator.addStatus s st sc msg (now s.statusChanges.length)

/-- Environment observations consumed by one `launch()` run, one per
fallible step of `_initializeBrowser`, `_joinMeeting` and
`_subscribeToCaptions`. -/
structure LaunchInput where
  browserLaunchFails : Bool
  launcherFlowFails : Bool
  lobbyJoinFails : Bool
  lobbyObserved : Bool
  meetingObserved : Bool
  captionsFails : Bool
deriving DecidableEq, Repr

/-- Error re-raised out of `launch()`, tagged by the step that threw. -/
inductive LaunchErr
  | browserLaunchError
  | launcherFlowError
  | lobbyJoinError
  | unknownPageError
  | captionsError
deriving DecidableEq, Repr

/-- Observations consumed by one `_close()` run: whether the browser/page were
ever launched, the `isInMeeting` probe result, and whether
`leaveMeetingFlow` and `browser.close()` throw. -/
structure CloseInput where
  hasPage : Bool
  hasBrowser : Bool
  inMeetingObserved : Bool
  leaveFlowFails : Bool
  browserCloseFails : Bool
deriving DecidableEq, Repr

/-- Error thrown out of `_close()`. -/
inductive CloseErr
  | notLaunched
  | leaveError
  | closeError
deriving DecidableEq, Repr

/-- Result of `_close()`: final orchestrator state, whether `browser.close()`
ran to completion, whether `logger.close()` was reached, and the error that
escaped, if any. -/
structure CloseResult where
  state : OrchestratorState
  browserClosed : Bool
  sinkClosed : Bool
  err : Option CloseErr
deriving DecidableEq, Repr

namespace Orchestrator

/-- Embedding of `launch()`: `_initializeBrowser` (append `launching`, or
`fatal` and throw), `_joinMeeting` (append `joining`; launcher flow and lobby
flow may throw; conditional `in_waiting_room`; `in_call_not_recording` or
`fatal`/`unknown_page` and throw; `done`), `_subscribeToCaptions` (`done`).
The surrounding catch appends one more `fatal` record and re-raises. -/
def launch (i : LaunchInput) (now : Nat → Nat) (s0 : OrchestratorState) :
    OrchestratorState × Option LaunchErr :=
  if i.browserLaunchFails then
    let s1 := appT now s0 .fatal none none
    (appT now s1 .fatal none (some "Bot failed to launch."), some .browserLaunchError)
  else
    let s1 := appT now s0 .launching none none
    let s2 := appT now s1 .joining none none
    if i.launcherFlowFails then
      (appT now s2 .fatal none (some "Bot failed to launch."), some .launcherFlowError)
    else if i.lobbyJoinFails then
      (appT now s2 .fatal none (some "Bot failed to launch."), some .lobbyJoinError)
    else
      let s3 :=
        if i.lobbyObserved then
          appT now s2 .in_waiting_room none (some "Bot entered the meeting lobby.")
        else s2
      if i.meetingObserved then
        let s4 := appT now s3 .in_call_not_recording none (some "Bot entered the meeting.")
        let s5 := appT now s4 .done none none
        if i.captionsFails then
          (appT now s5 .fatal none (some "Bot failed to launch."), some .captionsError)
        else
          (appT now s5 .done none none, none)
      else
        let s4 := appT now s3 .fatal (some "unknown_page") (some "Bot is on an unknown page.")
        (appT now s4 .fatal none (some "Bot failed to launch."), some .unknownPageError)

/-- Embedding of `_close()`: throws if the browser was never launched; if the
in-meeting probe observes true, runs `leaveMeetingFlow` (whose failure
propagates immediately) and appends `call_ended`; then `browser.close()`
(whose failure propagates), appends `done` and closes the log sink. -/
def close (i : CloseInput) (now : Nat → Nat) (s : OrchestratorState) :
    CloseResult :=
  if i.hasPage && i.hasBrowser then
    let finish : OrchestratorState → CloseResult := fun s1 =>
      if i.browserCloseFails then ⟨s1, false, false, some .closeError⟩
      else ⟨appT now s1 .done none (some "Browser closed"), true, true, none⟩
    if i.inMeetingObserved then
      if i.leaveFlowFails then ⟨s, false, false, some .leaveError⟩
      else finish (appT now s .call_ended none (some "Bot left the meeting."))
    else finish s
  else ⟨s, false, false, some .notLaunched⟩

/-- Public `shutdown()`, which just awaits `_close()`. -/
def shutdown (i : CloseInput) (now : Nat → Nat) (s : OrchestratorState) :
    CloseResult :=
  close i now s

end Orchestrator

/-- Whether a history already holds a `fatal` record. -/
def hasFatal (s : OrchestratorState) : Bool :=
  s.statusChanges.any (fun r => r.status == .fatal)

/-- Number of records with the given status in an orchestrator history. -/
def countOrchStatus (h : List (StatusRecord OrchStatus)) (st : OrchStatus) : Nat :=
  h.countP (fun r => r.status == st)

/-- Public operations on one orchestrator instance. -/
inductive OrchOp
  | launchOp (i : LaunchInput) (now : Nat → Nat)
  | shutdownOp (i : CloseInput) (now : Nat → Nat)

/-- State reached after one public operation. -/
def applyOrchOp : OrchOp → OrchestratorState → OrchestratorState
  | .launchOp i now, s => (Orchestrator.launch i now s).1
  | .shutdownOp i now, s => (Orchestrator.shutdown i now s).state

/-- Helper: appends preserve the presence of a `fatal` record. -/
theorem hasFatal_appT (now : Nat → Nat) (s : OrchestratorState)
    (st : OrchStatus) (sc msg : Option String) :
    hasFatal s = true → hasFatal (appT now s st sc msg) = true := by
  intro h
  simp only [hasFatal, List.any_eq_true] at h ⊢
  obtain ⟨r, hr, hst⟩ := h
  refine ⟨r, ?_, hst⟩
  simp [appT, Orchestrator.addStatus, addStatusChange, List.mem_append, hr]

/-- Helper: effect of one append on a status count. -/
theorem countOrchStatus_addStatus (s : OrchestratorState) (st st2 : OrchStatus)
    (sc msg : Option String) (now : Nat) :
    countOrchStatus (Orchestrator.addStatus s st sc msg now).statusChanges st2
      = countOrchStatus s.statusChanges st2 + (if st = st2 then 1 else 0) := by
  have hperm := addStatusChange_perm s.statusChanges st sc msg now
  show countOrchStatus (addStatusChange s.statusChanges st sc msg now) st2 = _
  unfold countOrchStatus
  rw [hperm.countP_eq, List.countP_append]
  by_cases h : st = st2
  · simp [List.countP, List.countP.go, h]
  · have hb : (st == st2) = false := beq_eq_false_iff_ne.2 h
    simp [List.countP, List.countP.go, hb, h]

/-- C5 counterexample: run `launch` from a fresh state against a page where
the in-meeting probe never observes true. `_joinMeeting` appends
`fatal`/`unknown_page` and throws; the catch in `launch` appends a second
`fatal` even though the history already holds one; a later `shutdown` (bot
not in meeting, browser closes fine) appends yet another record (`done`).
So a history containing `fatal` keeps receiving appends. -/
theorem fatal_not_absorbing_counterexample :
    hasFatal (Orchestrator.launch ⟨false, false, false, true, false, false⟩
        (fun n => n + 1) (Orchestrator.mkState "bot" "url" [] 0)).1 = true ∧
    countOrchStatus (Orchestrator.launch ⟨false, false, false, true, false, false⟩
        (fun n => n + 1) (Orchestrator.mkState "bot" "url" [] 0)).1.statusChanges .fatal = 2 ∧
    (Orchestrator.shutdown ⟨true, true, false, false, false⟩ (fun n => n + 1)
        (Orchestrator.launch ⟨false, false, false, true, false, false⟩
          (fun n => n + 1) (Orchestrator.mkState "bot" "url" [] 0)).1).state.statusChanges.length
      = (Orchestrator.launch ⟨false, false, false, true, false, false⟩
          (fun n => n + 1) (Orchestrator.mkState "bot" "url" [] 0)).1.statusChanges.length + 1 := by
  decide

/-- C5 amended: `fatal` is persistent rather than absorbing — once a `fatal`
record is in the Orchestrator history, it remains there after every
subsequent public operation (no operation ever removes it), but the code does
not block further appends after a `fatal`. -/
theorem fatal_persists (op : OrchOp) (s : OrchestratorState)
    (h : hasFatal s = true) : hasFatal (applyOrchOp op s) = true := by
  cases op with
  | launchOp i now =>
    show hasFatal (Orchestrator.launch i now s).1 = true
    obtain ⟨b1, b2, b3, b4, b5, b6⟩ := i
    cases b1 <;> cases b2 <;> cases b3 <;> cases b4 <;> cases b5 <;> cases b6 <;>
      simp only [Orchestrator.launch, Bool.true_eq_false, if_true, if_false] <;>
      first
        | exact hasFatal_appT _ _ _ _ _ (hasFatal_appT _ _ _ _ _ h)
        | exact hasFatal_appT _ _ _ _ _ (hasFatal_appT _ _ _ _ _
            (hasFatal_appT _ _ _ _ _ h))
        | exact hasFatal_appT _ _ _ _ _ (hasFatal_appT _ _ _ _ _
            (hasFatal_appT _ _ _ _ _ (hasFatal_appT _ _ _ _ _ h)))
        | exact hasFatal_appT _ _ _ _ _ (hasFatal_appT _ _ _ _ _
            (hasFatal_appT _ _ _ _ _ (hasFatal_appT _ _ _ _ _
              (hasFatal_appT _ _ _ _ _ h))))
        | exact hasFatal_appT _ _ _ _ _ (hasFatal_appT _ _ _ _ _
            (hasFatal_appT _ _ _ _ _ (hasFatal_appT _ _ _ _ _
              (hasFatal_appT _ _ _ _ _ (hasFatal_appT _ _ _ _ _ h)))))
  | shutdownOp i now =>
    show hasFatal (Orchestrator.close i now s).state = true
    obtain ⟨b1, b2, b3, b4, b5⟩ := i
    cases b1 <;> cases b2 <;> cases b3 <;> cases b4 <;> cases b5 <;>
      simp only [Orchestrator.close, Bool.true_eq_false, Bool.and_self,
        Bool.and_true, Bool.true_and, Bool.and_false, Bool.false_and,
        if_true, if_false] <;>
      first
        | exact h
        | exact hasFatal_appT _ _ _ _ _ h
        | exact hasFatal_appT _ _ _ _ _ (hasFatal_appT _ _ _ _ _ h)

/-- C5 amended witness: a state with a `fatal` record still holds it after a
shutdown. -/
theorem fatal_persists_witness :
    hasFatal (applyOrchOp
      (.shutdownOp ⟨true, true, false, false, false⟩ (fun n => n + 1))
      (Orchestrator.addStatus (Orchestrator.mkState "bot" "url" [] 0)
        .fatal none none 1)) = true := by
  exact fatal_persists _ _ (by decide)

/-- C4 counterexample: a launched, in-call bot whose `leaveMeetingFlow`
throws. `_close` has no try/finally, so the error propagates before
`browser.close()` and `logger.close()` are reached: the browser session is
not released and the log sink stays open. -/
theorem shutdown_leaveFailure_counterexample :
    (Orchestrator.shutdown ⟨true, true, true, true, false⟩ (fun n => n + 1)
        (Orchestrator.mkState "bot" "url" [] 0)).browserClosed = false ∧
    (Orchestrator.shutdown ⟨true, true, true, true, false⟩ (fun n => n + 1)
        (Orchestrator.mkState "bot" "url" [] 0)).sinkClosed = false ∧
    (Orchestrator.shutdown ⟨true, true, true, true, false⟩ (fun n => n + 1)
        (Orchestrator.mkState "bot" "url" [] 0)).err = some .leaveError := by
  decide

/-- C4 amended: on a launched bot, `shutdown()` releases the browser and
closes the log sink whenever the leave flow does not itself throw: if in-call,
the leave flow runs and `call_ended` is appended; then the browser is closed
and the sink closed, the only error surfacing past that point being the
`browser.close()` error (before the sink is closed). When the leave flow
throws, its error propagates and neither browser nor sink is closed. -/
theorem shutdown_teardown (i : CloseInput) (now : Nat → Nat)
    (s : OrchestratorState) (hp : i.hasPage = true) (hb : i.hasBrowser = true)
    (hl : i.leaveFlowFails = false) :
    (i.browserCloseFails = false →
      (Orchestrator.shutdown i now s).browserClosed = true ∧
      (Orchestrator.shutdown i now s).sinkClosed = true ∧
      (Orchestrator.shutdown i now s).err = none ∧
      (i.inMeetingObserved = true →
        countOrchStatus (Orchestrator.shutdown i now s).state.statusChanges .call_ended
          = countOrchStatus s.statusChanges .call_ended + 1)) ∧
    (i.browserCloseFails = true →
      (Orchestrator.shutdown i now s).err = some .closeError ∧
      (Orchestrator.shutdown i now s).browserClosed = false) := by
  obtain ⟨p, b, m, l, c⟩ := i
  simp only at hp hb hl
  subst hp hb hl
  cases m <;> cases c <;>
    simp [Orchestrator.shutdown, Orchestrator.close, appT,
      countOrchStatus_addStatus]

/-- C4 amended witness: launched, in-call, leave succeeds, close succeeds. -/
theorem shutdown_teardown_witness :
    (Orchestrator.shutdown ⟨true, true, true, false, false⟩ (fun n => n + 1)
        (Orchestrator.mkState "bot" "url" [] 0)).browserClosed = true ∧
    (Orchestrator.shutdown ⟨true, true, true, false, false⟩ (fun n => n + 1)
        (Orchestrator.mkState "bot" "url" [] 0)).sinkClosed = true := by
  have h := (shutdown_teardown ⟨true, true, true, false, false⟩ (fun n => n + 1)
    (Orchestrator.mkState "bot" "url" [] 0) rfl rfl rfl).1 rfl
  exact ⟨h.1, h.2.1⟩

/-! GET /captions endpoint of the bot runner, and `Orchestrator.getCaptions`. -/

namespace Orchestrator

/-- Embedding of `getCaptions()`: throws a precondition error when the
captions procedure was never initialized, otherwise returns the accumulated
caption state. Caption lines are kept abstract as strings. -/
def getCaptions (captionsInitialized : Bool) (captions : List String) :
    Except String (List String) :=
  if captionsInitialized then .ok captions
  else .error "Captions procedure not initialized"

end Orchestrator

/-- View of the running bot as seen by the HTTP handler: whether the captions
procedure has been initialized, and the accumulated captions. -/
structure BotView where
  captionsInitialized : Bool
  captions : List String
deriving DecidableEq, Repr

/-- Responses the GET /captions handler can produce. -/
inductive CaptionsHttpResult
  | ok (captions : List String)
  | serviceUnavailable
  | internalError
deriving DecidableEq, Repr

/-- Embedding of the bot-runner GET /captions route: 503 when the bot object
is absent; otherwise `getCaptions()` is awaited, a thrown error is caught and
mapped to 500, and a result is returned as 200 with the captions. -/
def captionsRoute (bot : Option BotView) : CaptionsHttpResult :=
  match bot with
  | none => .serviceUnavailable
  | some b =>
    match Orchestrator.getCaptions b.captionsInitialized b.captions with
    | .ok cs => .ok cs
    | .error _ => .internalError

/-- C7 counterexample: a live bot whose caption capture was never started
answers 500 (the precondition error thrown by `getCaptions` is caught by the
route and mapped to `internalError`), not the 503 the claim requires; 503 is
produced only when the bot object itself is absent. -/
theorem captionsRoute_uninitialized_counterexample :
    captionsRoute (some ⟨false, []⟩) = .internalError ∧
    captionsRoute (some ⟨false, []⟩) ≠ .serviceUnavailable := by
  decide

/-- C7 amended: GET /captions answers 503 exactly when the bot object is
absent; with a bot present it answers 200 with the accumulated captions when
capture was started and 500 when it was never started (the precondition error
of `getCaptions`, which fails exactly when captions were never started, is
mapped to an internal failure). -/
theorem captionsRoute_spec :
    captionsRoute none = .serviceUnavailable ∧
    (∀ b : BotView, captionsRoute (some b)
        = if b.captionsInitialized then .ok b.captions else .internalError) ∧
    (∀ cs : List String, Orchestrator.getCaptions true cs = .ok cs) ∧
    (∃ e : String, ∀ cs : List String, Orchestrator.getCaptions false cs = .error e) := by
  refine ⟨rfl, ?_, fun cs => rfl, ⟨"Captions procedure not initialized", fun cs => rfl⟩⟩
  intro b
  cases hb : b.captionsInitialized <;>
    simp [captionsRoute, Orchestrator.getCaptions, hb]

/-! Notifier: fan-out with per-destination dispatch and ws retry
(src/apps/teams-bot/src/lib/Notifier.ts). -/

/-- Observable outcome of one `_sendWsWithRetry` call: how many send attempts
ran, the backoff delays slept between consecutive attempts (in ms), and
whether the call returned normally (`ok = true`) or re-raised the last error
(`ok = false`). -/
structure WsResult where
  attempts : Nat
  delays : List Nat
  ok : Bool
deriving DecidableEq, Repr

namespace Notifier

/-- Default `retries` of `_sendWsWithRetry`. -/
def wsDefaultRetries : Nat := 5

/-- The `while (attempt < retries)` loop of `_sendWsWithRetry`. `succ n` is
whether the send attempt made with the failure counter at `n` succeeds
(acquiring the pooled connection and sending). On failure the counter is
incremented; if still below `retries` the loop sleeps `2 ^ attempt * 100` ms
and retries, otherwise it rethrows the last error. The structural argument
`fuel` is the loop variant `retries - attempt`: `fuel = 0` is exactly the
loop guard `attempt < retries` being false, where the loop exits normally. -/
def sendWsAttempts (succ : Nat → Bool) (retries : Nat) :
    (attempt fuel : Nat) → WsResult
  | _, 0 => ⟨0, [], true⟩
  | attempt, fuel + 1 =>
    if succ attempt then ⟨1, [], true⟩
    else if attempt + 1 < retries then
      let r := sendWsAttempts succ retries (attempt + 1) fuel
      ⟨r.attempts + 1, (2 ^ (attempt + 1) * 100) :: r.delays, r.ok⟩
    else ⟨1, [], false⟩

/-- Embedding of `_sendWsWithRetry`: run the loop with the failure counter
starting at 0. -/
def sendWsWithRetry (succ : Nat → Bool) (retries : Nat) : WsResult :=
  sendWsAttempts succ retries 0 retries

end Notifier

/-- Behavior of one configured destination URL, as the Notifier can observe
it: the URL fails to parse; it is http/https (does `fetch` throw? is the
response ok?); it is ws/wss (which attempts succeed?); or it has some other
scheme. -/
inductive DestKind
  | invalidUrl
  | httpDest (fetchThrows : Bool) (respOk : Bool)
  | wsDest (succ : Nat → Bool)
  | otherScheme

/-- Error thrown inside the per-destination loop body before being caught by
the loop's catch. -/
inductive SendError
  | urlParse
  | wsExhausted (attempts : Nat) (delays : List Nat)
deriving DecidableEq, Repr

/-- Event recorded for one destination by `sendEventToServer`. -/
inductive SendEvent
  | httpAttempt (respOk : Bool)
  | httpErrorLogged
  | wsSent (attempts : Nat) (delays : List Nat)
  | unsupportedLogged
  | failureLogged (e : SendError)
deriving DecidableEq, Repr

namespace Notifier

/-- Embedding of `_sendHttp`: a single best-effort POST; a thrown `fetch`
error is caught and logged, a non-ok response is logged; neither raises. -/
def sendHttp (fetchThrows respOk : Bool) : SendEvent :=
  if fetchThrows then .httpErrorLogged else .httpAttempt respOk

/-- Body of the per-destination `try` in `sendEventToServer`: parse the URL
(throwing on failure), dispatch on the protocol, let a ws retry exhaustion
propagate, and log an unsupported protocol without raising. -/
def tryDest : DestKind → Except SendError SendEvent
  | .invalidUrl => .error .urlParse
  | .httpDest ft rok => .ok (sendHttp ft rok)
  | .wsDest succ =>
    let r := sendWsWithRetry succ wsDefaultRetries
    if r.ok then .ok (.wsSent r.attempts r.delays)
    else .error (.wsExhausted r.attempts r.delays)
  | .otherScheme => .ok .unsupportedLogged

/-- Catch of the per-destination loop body: a thrown error is logged and the
loop moves on. -/
def handleDest (d : DestKind) : SendEvent :=
  match tryDest d with
  | .ok e => e
  | .error err => .failureLogged err

/-- Embedding of `sendEventToServer`: the `for (const url of this.urls)` loop,
each iteration running the guarded body. -/
def sendEventToServer : List DestKind → List SendEvent
  | [] => []
  | d :: ds =>
    (match tryDest d with
     | .ok e => e
     | .error err => SendEvent.failureLogged err) :: sendEventToServer ds

end Notifier

/-- Helper: prepending one backoff delay to a run of doubling delays. -/
theorem delays_cons (a n : Nat) :
    (2 ^ (a + 1) * 100) :: (List.range n).map (fun i => 2 ^ (a + 2 + i) * 100)
      = (List.range (n + 1)).map (fun i => 2 ^ (a + 1 + i) * 100) := by
  rw [List.range_succ_eq_map, List.map_cons, List.map_map]
  simp only [List.cons.injEq]
  refine ⟨by norm_num, ?_⟩
  apply List.map_congr_left
  intro i _
  show 2 ^ (a + 2 + i) * 100 = 2 ^ (a + 1 + (i + 1)) * 100
  have h : a + 2 + i = a + 1 + (i + 1) := by omega
  rw [h]

/-- Helper: one iteration of the retry loop, unfolded. -/
theorem sendWsAttempts_step (succ : Nat → Bool) (retries attempt fuel : Nat) :
    Notifier.sendWsAttempts succ retries attempt (fuel + 1)
      = if succ attempt then ⟨1, [], true⟩
        else if attempt + 1 < retries then
          ⟨(Notifier.sendWsAttempts succ retries (attempt + 1) fuel).attempts + 1,
           (2 ^ (attempt + 1) * 100)
             :: (Notifier.sendWsAttempts succ retries (attempt + 1) fuel).delays,
           (Notifier.sendWsAttempts succ retries (attempt + 1) fuel).ok⟩
        else ⟨1, [], false⟩ := rfl

/-- Helper: the retry loop when every attempt fails, from an arbitrary loop
state (`fuel` is the loop variant `retries - attempt`). -/
theorem sendWsAttempts_allFail :
    ∀ (fuel attempt retries : Nat), fuel + attempt = retries → 0 < fuel →
      Notifier.sendWsAttempts (fun _ => false) retries attempt fuel
        = ⟨fuel, (List.range (fuel - 1)).map (fun i => 2 ^ (attempt + 1 + i) * 100),
           false⟩
  | 0, _, _, _, h0 => absurd h0 (by omega)
  | 1, attempt, retries, hsum, _ => by
    have hnl : ¬ attempt + 1 < retries := by omega
    rw [sendWsAttempts_step, if_neg (by simp), if_neg hnl]
    simp
  | (f + 1) + 1, attempt, retries, hsum, _ => by
    have hlt : attempt + 1 < retries := by omega
    have ih := sendWsAttempts_allFail (f + 1) (attempt + 1) retries (by omega)
      (by omega)
    have hm : (List.range f).map (fun i => 2 ^ (attempt + 1 + 1 + i) * 100)
        = (List.range f).map (fun i => 2 ^ (attempt + 2 + i) * 100) := by
      apply List.map_congr_left
      intro i _
      have h : attempt + 1 + 1 + i = attempt + 2 + i := by omega
      rw [h]
    rw [sendWsAttempts_step, if_neg (by simp), if_pos hlt, ih]
    simp [hm, delays_cons]

/-- Helper: the retry loop when attempts 0..k-1 fail and attempt k succeeds. -/
theorem sendWsAttempts_succAt (succ : Nat → Bool) (k : Nat) (hk : succ k = true)
    (hfail : ∀ j, j < k → succ j = false) :
    ∀ (fuel attempt retries : Nat), fuel + attempt = retries → attempt ≤ k →
      k < retries →
      Notifier.sendWsAttempts succ retries attempt fuel
        = ⟨k + 1 - attempt,
           (List.range (k - attempt)).map (fun i => 2 ^ (attempt + 1 + i) * 100),
           true⟩
  | 0, attempt, retries, hsum, hak, hkr => by omega
  | fuel + 1, attempt, retries, hsum, hak, hkr => by
    by_cases heq : attempt = k
    · subst heq
      rw [sendWsAttempts_step, if_pos hk]
      simp [Nat.sub_self]
    · have hsf : succ attempt = false := hfail attempt (by omega)
      have hlt2 : attempt + 1 < retries := by omega
      have ih := sendWsAttempts_succAt succ k hk hfail fuel (attempt + 1) retries
        (by omega) (by omega) hkr
      have hm : (List.range (k - (attempt + 1))).map
            (fun i => 2 ^ (attempt + 1 + 1 + i) * 100)
          = (List.range (k - attempt - 1)).map (fun i => 2 ^ (attempt + 2 + i) * 100) := by
        have hn : k - (attempt + 1) = k - attempt - 1 := by omega
        rw [hn]
      have hd := delays_cons attempt (k - attempt - 1)
      have hn2 : k - attempt - 1 + 1 = k - attempt := by omega
      rw [hn2] at hd
      rw [sendWsAttempts_step, if_neg (by simp [hsf]), if_pos hlt2, ih]
      simp [hm, hd]
      omega

/-- Helper: the backoff delays double and strictly increase. -/
theorem delays_doubling (n : Nat) :
    List.Chain' (fun a b => b = 2 * a ∧ a < b)
      ((List.range n).map (fun i => 2 ^ (i + 1) * 100)) := by
  rw [List.chain'_map]
  cases n with
  | zero => simp
  | succ m =>
    rw [List.chain'_range_succ]
    intro i hi
    constructor
    · show 2 ^ (i + 1 + 1) * 100 = 2 * (2 ^ (i + 1) * 100)
      ring
    · show 2 ^ (i + 1) * 100 < 2 ^ (i + 1 + 1) * 100
      have h1 : 0 < 2 ^ (i + 1) * 100 := by positivity
      have h2 : (2 : Nat) ^ (i + 1 + 1) * 100 = 2 * (2 ^ (i + 1) * 100) := by ring
      omega

/-- Helper: normalizing the exponent shape of the delay list. -/
theorem delays_from_zero (n : Nat) :
    (List.range n).map (fun i => 2 ^ (0 + 1 + i) * 100)
      = (List.range n).map (fun i => 2 ^ (i + 1) * 100) := by
  apply List.map_congr_left
  intro i _
  have h : 0 + 1 + i = i + 1 := by omega
  rw [h]

/-- C3: on a destination where every attempt fails, `_sendWsWithRetry` makes
exactly `retries` attempts, sleeping `2 ^ attempt * 100` ms after each failed
attempt but the last (200ms after attempt 1, 400ms after attempt 2, ...), the
delays doubling and strictly increasing, and re-raises the last error; if
attempts 0..k-1 fail and attempt at index `k < retries` succeeds, it returns
success after `k + 1` attempts with only the first `k` delays and no further
attempt. -/
theorem sendWsWithRetry_policy (retries : Nat) (hr : 1 ≤ retries) :
    (Notifier.sendWsWithRetry (fun _ => false) retries
        = ⟨retries, (List.range (retries - 1)).map (fun i => 2 ^ (i + 1) * 100),
           false⟩
      ∧ List.Chain' (fun a b => b = 2 * a ∧ a < b)
          ((List.range (retries - 1)).map (fun i => 2 ^ (i + 1) * 100)))
    ∧ (∀ (succ : Nat → Bool) (k : Nat), k < retries → succ k = true →
        (∀ j, j < k → succ j = false) →
        Notifier.sendWsWithRetry succ retries
          = ⟨k + 1, (List.range k).map (fun i => 2 ^ (i + 1) * 100), true⟩) := by
  refine ⟨⟨?_, delays_doubling _⟩, ?_⟩
  · have h := sendWsAttempts_allFail retries 0 retries (by omega) (by omega)
    rw [Notifier.sendWsWithRetry, h, delays_from_zero]
  · intro succ k hkr hk hfail
    have h := sendWsAttempts_succAt succ k hk hfail retries 0 retries (by omega)
      (by omega) hkr
    rw [Notifier.sendWsWithRetry, h, delays_from_zero]
    simp

/-- C3 witness at the default `retries = 5`: exhaustion after 5 attempts with
delays 200/400/800/1600 ms, and success at attempt index 2 after delays
200/400 ms. -/
theorem sendWsWithRetry_policy_witness :
    Notifier.sendWsWithRetry (fun _ => false) 5
        = ⟨5, [200, 400, 800, 1600], false⟩ ∧
    Notifier.sendWsWithRetry (fun i => decide (2 ≤ i)) 5
        = ⟨3, [200, 400], true⟩ := by
  constructor
  · exact ((sendWsWithRetry_policy 5 (by norm_num)).1.1).trans (by decide)
  · exact ((sendWsWithRetry_policy 5 (by norm_num)).2 (fun i => decide (2 ≤ i)) 2
      (by norm_num) (by decide) (by decide)).trans (by decide)

/-- C2: `sendEventToServer` processes every configured destination in order
and independently — the event recorded for each destination is a function of
that destination alone, so a failure on one (an unparseable URL, a non-ok or
throwing HTTP send, or a ws destination whose retries are exhausted and whose
error is caught by the loop) never prevents attempting the others — and the
loop body catches every thrown error, so the call returns normally. In the
spec scenario [A = always-failing ws, B = succeeding http], A is attempted
through all 5 retries, its failure is logged, and B's send is still observed. -/
theorem sendEventToServer_fanout :
    (∀ ds : List DestKind,
      Notifier.sendEventToServer ds = ds.map Notifier.handleDest) ∧
    (∀ (ds1 ds2 : List DestKind) (d : DestKind),
      Notifier.sendEventToServer (ds1 ++ d :: ds2)
        = Notifier.sendEventToServer ds1
          ++ Notifier.handleDest d :: Notifier.sendEventToServer ds2) ∧
    Notifier.sendEventToServer
        [DestKind.wsDest (fun _ => false), DestKind.httpDest false true]
      = [SendEvent.failureLogged (.wsExhausted 5 [200, 400, 800, 1600]),
         SendEvent.httpAttempt true] := by
  have hmap : ∀ ds : List DestKind,
      Notifier.sendEventToServer ds = ds.map Notifier.handleDest := by
    intro ds
    induction ds with
    | nil => rfl
    | cons d ds ih =>
      show (match Notifier.tryDest d with
            | .ok e => e
            | .error err => SendEvent.failureLogged err) :: Notifier.sendEventToServer ds
          = Notifier.handleDest d :: ds.map Notifier.handleDest
      rw [ih]
      rfl
  refine ⟨hmap, ?_, by decide⟩
  intro ds1 ds2 d
  rw [hmap, hmap, hmap, List.map_append, List.map_cons]

/-- C10: a destination whose URL does not parse, or whose scheme is none of
http/https/ws/wss, only produces an error log entry — the parse failure is
thrown and caught by the loop (`failureLogged .urlParse`, before any send),
and the unsupported scheme is logged inside the body without raising — no
delivery attempt is made for it, and every other destination, before and
after it, is still processed exactly as it would be alone. -/
theorem sendEventToServer_unsupported_skipped (ds1 ds2 : List DestKind)
    (d : DestKind) (hd : d = .invalidUrl ∨ d = .otherScheme) :
    Notifier.sendEventToServer (ds1 ++ d :: ds2)
      = Notifier.sendEventToServer ds1
        ++ Notifier.handleDest d :: Notifier.sendEventToServer ds2 ∧
    (Notifier.handleDest d = .failureLogged .urlParse ∨
     Notifier.handleDest d = .unsupportedLogged) ∧
    (∀ rok, Notifier.handleDest d ≠ .httpAttempt rok) ∧
    Notifier.handleDest d ≠ .httpErrorLogged ∧
    (∀ n l, Notifier.handleDest d ≠ .wsSent n l) := by
  have hmap : ∀ ds : List DestKind,
      Notifier.sendEventToServer ds = ds.map Notifier.handleDest := by
    intro ds
    induction ds with
    | nil => rfl
    | cons d2 ds ih =>
      show (match Notifier.tryDest d2 with
            | .ok e => e
            | .error err => SendEvent.failureLogged err) :: Notifier.sendEventToServer ds
          = Notifier.handleDest d2 :: ds.map Notifier.handleDest
      rw [ih]
      rfl
  refine ⟨by rw [hmap, hmap, hmap, List.map_append, List.map_cons], ?_⟩
  rcases hd with h | h <;> subst h <;>
    exact ⟨by decide,
      fun rok => by simp [Notifier.handleDest, Notifier.tryDest],
      by decide,
      fun n l => by simp [Notifier.handleDest, Notifier.tryDest]⟩

/-- C10 witness: an unparseable URL followed by a working http destination —
the bad URL is only logged, the http destination is still attempted. -/
theorem sendEventToServer_unsupported_skipped_witness :
    Notifier.sendEventToServer [DestKind.invalidUrl, DestKind.httpDest false true]
      = [SendEvent.failureLogged .urlParse, SendEvent.httpAttempt true] := by
  have h := sendEventToServer_unsupported_skipped [] [DestKind.httpDest false true]
    DestKind.invalidUrl (Or.inl rfl)
  exact h.1.trans (by decide)

/-! Standalone launcher free-port scan (`is_port_in_use` / `find_free_port`
in the shell helper script). -/

/-- Embedding of `is_port_in_use`: the set of listening TCP ports is given as
a list. -/
def is_port_in_use (inUse : List Nat) (p : Nat) : Bool :=
  inUse.contains p

/-- The `while [ $CURRENT_PORT -le $END_PORT ]` loop of `find_free_port`:
echo the first port not in use, advance otherwise. The structural argument
`fuel` is the loop variant `endPort + 1 - current`; `fuel = 0` is exactly the
guard `current ≤ endPort` being false, where the scan fails. -/
def find_free_port_loop (inUse : List Nat) (endPort : Nat) :
    (current fuel : Nat) → Option Nat
  | _, 0 => none
  | current, fuel + 1 =>
    if is_port_in_use inUse current then
      find_free_port_loop inUse endPort (current + 1) fuel
    else some current

/-- Embedding of `find_free_port START_PORT END_PORT`. -/
def find_free_port (inUse : List Nat) (startPort endPort : Nat) : Option Nat :=
  find_free_port_loop inUse endPort startPort (endPort + 1 - startPort)

/-- Helper: a successful scan returns the smallest free port at or after the
scan position. -/
theorem find_free_port_loop_some (inUse : List Nat) (endPort : Nat) :
    ∀ (fuel current p : Nat), fuel = endPort + 1 - current →
      find_free_port_loop inUse endPort current fuel = some p →
      current ≤ p ∧ p ≤ endPort ∧ is_port_in_use inUse p = false ∧
        ∀ q, current ≤ q → q < p → is_port_in_use inUse q = true
  | 0, current, p, hf, hp => by simp [find_free_port_loop] at hp
  | fuel + 1, current, p, hf, hp => by
    by_cases hu : is_port_in_use inUse current
    · rw [find_free_port_loop, if_pos hu] at hp
      have ih := find_free_port_loop_some inUse endPort fuel (current + 1) p
        (by omega) hp
      refine ⟨by omega, ih.2.1, ih.2.2.1, ?_⟩
      intro q hq1 hq2
      by_cases hq : q = current
      · subst hq; exact hu
      · exact ih.2.2.2 q (by omega) hq2
    · rw [find_free_port_loop, if_neg hu] at hp
      have hpc : p = current := by
        injection hp with h
        omega
      subst hpc
      refine ⟨Nat.le_refl _, by omega, by simpa using hu, ?_⟩
      intro q hq1 hq2
      omega

/-- Helper: the scan fails exactly when every port from the scan position to
the end of the range is in use. -/
theorem find_free_port_loop_none (inUse : List Nat) (endPort : Nat) :
    ∀ (fuel current : Nat), fuel = endPort + 1 - current →
      (find_free_port_loop inUse endPort current fuel = none ↔
        ∀ q, current ≤ q → q ≤ endPort → is_port_in_use inUse q = true)
  | 0, current, hf => by
    simp only [find_free_port_loop, true_iff]
    intro q hq1 hq2
    omega
  | fuel + 1, current, hf => by
    by_cases hu : is_port_in_use inUse current
    · rw [find_free_port_loop, if_pos hu]
      rw [find_free_port_loop_none inUse endPort fuel (current + 1) (by omega)]
      constructor
      · intro h q hq1 hq2
        by_cases hq : q = current
        · subst hq; exact hu
        · exact h q (by omega) hq2
      · intro h q hq1 hq2
        exact h q (by omega) hq2
    · rw [find_free_port_loop, if_neg hu]
      simp only [reduceCtorEq, false_iff]
      intro h
      have hcur : is_port_in_use inUse current = true := h current (Nat.le_refl _) (by omega)
      simp [hcur] at hu

/-- C9: for every port range with start at most end and every set of in-use
ports, `find_free_port` returns the smallest port in the range that is not in
use, and fails exactly when every port in the range is in use; in particular,
with 4101-4103 occupied inside the 4101-4199 range, it selects 4104. -/
theorem find_free_port_spec (inUse : List Nat) (startPort endPort : Nat)
    (hse : startPort ≤ endPort) :
    (∀ p, find_free_port inUse startPort endPort = some p →
      startPort ≤ p ∧ p ≤ endPort ∧ is_port_in_use inUse p = false ∧
        ∀ q, startPort ≤ q → q < p → is_port_in_use inUse q = true) ∧
    (find_free_port inUse startPort endPort = none ↔
      ∀ q, startPort ≤ q → q ≤ endPort → is_port_in_use inUse q = true) ∧
    find_free_port [4101, 4102, 4103] 4101 4199 = some 4104 := by
  refine ⟨?_, ?_, by decide⟩
  · intro p hp
    exact find_free_port_loop_some inUse endPort _ startPort p rfl hp
  · exact find_free_port_loop_none inUse endPort _ startPort rfl

/-- C9 witness at the spec's concrete scenario. -/
theorem find_free_port_spec_witness :
    find_free_port [4101, 4102, 4103] 4101 4199 = some 4104 :=
  (find_free_port_spec [4101, 4102, 4103] 4101 4199 (by norm_num)).2.2

/-- C8 witness: one concrete append on a fresh orchestrator state grows the
history by one and keeps the constructor record present. -/
theorem statusHistory_append_frame_witness :
    (Orchestrator.addStatus (Orchestrator.mkState "bot" "url" [] 0)
        .launching none none 1).statusChanges.length
      = (Orchestrator.mkState "bot" "url" [] 0).statusChanges.length + 1 ∧
    (⟨.initializing, none, none, 0⟩ : StatusRecord OrchStatus)
      ∈ (Orchestrator.addStatus (Orchestrator.mkState "bot" "url" [] 0)
          .launching none none 1).statusChanges := by
  have h := statusHistory_append_frame.1 (Orchestrator.mkState "bot" "url" [] 0)
    .launching none none 1
  exact ⟨h.1, h.2.1 ⟨.initializing, none, none, 0⟩ (by decide)⟩
